import Mathlib

/-!
Shallow embedding of `ftp_tester.py` (repository tucommenceapousser/tryftp).

Strings are modelled as `List Char`.  Network and thread-pool effects are
modelled by explicit oracles: the behaviour of the FTP session for an entry
is a `NetBehavior` record (one `Option PyExc` per blocking call, `none`
meaning the call returned normally), and the result of each submitted
future is an `Except` value (`.error` meaning `fut.result()` raised).
Timestamps produced by `now()` are abstracted away: the unified log is
modelled as the list of `(ok, message, normalizedLine)` triples that the
formatted log lines are built from.
-/

namespace FtpTester

/-- Strings of the Python program, modelled as lists of characters. -/
abbrev Str := List Char

/-- The six ASCII whitespace characters removed by Python's `str.strip()`
(the model ignores the non-ASCII Unicode spaces `strip` also removes). -/
def isPySpace (c : Char) : Bool :=
  c == ' ' || c == '\t' || c == '\n' || c == '\r' || c == '\x0b' || c == '\x0c'

/-- Python `s.strip()`: remove leading and trailing whitespace. -/
def strip (l : Str) : Str :=
  ((l.dropWhile isPySpace).reverse.dropWhile isPySpace).reverse

/-- Python `s.split(']')[-1]` for a string containing `']'`: the substring
after the last `']'` (source line 36). -/
def afterLastBracket (l : Str) : Str :=
  (l.reverse.takeWhile (fun c => c != ']')).reverse

/-- Python `s.lower().startswith("ftp://")` (source line 41), restricted to
ASCII lowercasing. -/
def hasFtpScheme (l : Str) : Bool :=
  (l.take 6).map Char.toLower == ("ftp://").toList

/-- Split at the LAST occurrence of `sep`: `none` when `sep` does not occur,
otherwise `some (before, after)`. Building block for Python `rsplit`. -/
def rsplit1 (sep : Char) (l : Str) : Option (Str × Str) :=
  let r := l.reverse
  match r.dropWhile (fun c => c != sep) with
  | [] => none
  | _ :: before => some (before.reverse, (r.takeWhile (fun c => c != sep)).reverse)

/-- Python `s.rsplit(':', 3)` (source line 45): split from the right at the
last at-most-three occurrences of `sep`, yielding 1 to 4 parts. -/
def rsplit3 (sep : Char) (l : Str) : List Str :=
  match rsplit1 sep l with
  | none => [l]
  | some (l1, p4) =>
    match rsplit1 sep l1 with
    | none => [l1, p4]
    | some (l2, p3) =>
      match rsplit1 sep l2 with
      | none => [l2, p3, p4]
      | some (l3, p2) => [l3, p2, p3, p4]

/-- ASCII decimal digit test. -/
def isDigitCh (c : Char) : Bool :=
  48 ≤ c.toNat && c.toNat ≤ 57

/-- Value of a string of decimal digits. -/
def digitsToNat (l : Str) : Nat :=
  l.foldl (fun a c => a * 10 + (c.toNat - 48)) 0

/-- Core of Python `int(s)` on an already-stripped string: an optional
single sign followed by a nonempty run of decimal digits (the model omits
PEP 515 underscores and non-ASCII digits). Leading zeros are accepted:
`int("021") = 21`. -/
def pyIntCore (t : Str) : Option Int :=
  match t with
  | [] => none
  | c :: ds =>
    if c == '+' then
      if ds ≠ [] ∧ ds.all isDigitCh then some (digitsToNat ds) else none
    else if c == '-' then
      if ds ≠ [] ∧ ds.all isDigitCh then some (-(digitsToNat ds : Int)) else none
    else
      if (c :: ds).all isDigitCh then some (digitsToNat (c :: ds)) else none

/-- Python `int(s)` (which itself ignores surrounding whitespace);
`none` models the `ValueError` caught at source lines 57-60. -/
def pyInt (l : Str) : Option Int :=
  pyIntCore (strip l)

/-- The credential tuple `(host, port, user, password)` returned by
`extract_ftp_entry` on success (source line 65). -/
structure CredentialEntry where
  host : Str
  port : Int
  user : Str
  password : Str
deriving DecidableEq

/-- The line rewriting performed by `extract_ftp_entry` before splitting
(source lines 29-42): strip, take the part after the last `']'` when that
part is nonempty, then drop a leading `ftp://` scheme. -/
def preprocess (line : Str) : Str :=
  let s := strip line
  let s1 :=
    if s.contains ']' then
      let candidate := strip (afterLastBracket s)
      if candidate ≠ [] then candidate else s
    else s
  if hasFtpScheme s1 then s1.drop 6 else s1

/-- `extract_ftp_entry` (source lines 21-65): `none` models Python `None`. -/
def extract_ftp_entry (line : Str) : Option CredentialEntry :=
  if strip line = [] then none
  else
    match rsplit3 ':' (preprocess line) with
    | [host, port_str, user, password] =>
      match pyInt (strip port_str) with
      | none => none
      | some port =>
        if strip host = [] ∨ strip user = [] then none
        else some ⟨strip host, port, strip user, strip password⟩
    | _ => none

/-- Python `str(i)` for an integer: canonical decimal representation. -/
def intChars (i : Int) : Str :=
  if i < 0 then '-' :: Nat.toDigits 10 i.natAbs else Nat.toDigits 10 i.toNat

/-- The f-string `f"{host}:{port}:{user}:{password}"` of source line 77:
note the port is rendered from its integer value, not from the raw field. -/
def normalize (e : CredentialEntry) : Str :=
  e.host ++ ':' :: (intChars e.port ++ ':' :: (e.user ++ ':' :: e.password))

/-- The exceptions distinguished by the `except` chain of source lines
93-103, each carrying the message text used when it is formatted. -/
inductive PyExc where
  | errorPerm (msg : Str)
  | errorTemp (msg : Str)
  | errorProto (msg : Str)
  | socketTimeout
  | timeoutErr
  | connRefused (msg : Str)
  | connReset (msg : Str)
  | osErr (msg : Str)
  | otherExc (msg : Str)
deriving DecidableEq

/-- The message produced by the matching `except` clause (source lines
93-104); for `otherExc` the payload stands for `repr(e)`. -/
def classifyExc : PyExc → Str
  | .errorPerm m => ("perm_error: ").toList ++ m
  | .errorTemp m => ("temp_error: ").toList ++ m
  | .errorProto m => ("proto_error: ").toList ++ m
  | .socketTimeout => ("timeout").toList
  | .timeoutErr => ("timeout").toList
  | .connRefused m => ("network_error: ").toList ++ m
  | .connReset m => ("network_error: ").toList ++ m
  | .osErr m => ("network_error: ").toList ++ m
  | .otherExc m => ("other_error: ").toList ++ m

/-- Oracle for one FTP session: the outcome of each blocking call in
`test_ftp_connect` (`none` = the call returned normally, `some e` = it
raised `e`).  The `nlst` call (source line 86) sits inside its own
`try/except Exception: pass` (lines 85-89), so its exception is swallowed. -/
structure NetBehavior where
  connect : Option PyExc
  login : Option PyExc
  nlst : Option PyExc
  quit : Option PyExc
deriving DecidableEq

/-- `test_ftp_connect` (source lines 67-104), with the network abstracted
by `net`.  Returns `(ok, message, normalized_line)`.  The first exception
among `connect`, `login`, `quit` is classified by the `except` chain;
an `nlst` exception is swallowed by the inner `try` (lines 85-89). -/
def test_ftp_connect (net : CredentialEntry → NetBehavior) (entry_line : Str) :
    Bool × Str × Str :=
  match extract_ftp_entry entry_line with
  | none => (false, ("parse_error").toList, strip entry_line)
  | some e =>
    let normalized := normalize e
    let b := net e
    match b.connect with
    | some ex => (false, classifyExc ex, normalized)
    | none =>
      match b.login with
      | some ex => (false, classifyExc ex, normalized)
      | none =>
        match b.quit with
        | some ex => (false, classifyExc ex, normalized)
        | none => (true, ("connected").toList, normalized)

/-- The result of `fut.result()` for one submitted task (source line 136):
`.ok` is a returned `(ok, msg, normalized)` triple, `.error m` models the
call raising an exception with text `m`. -/
abbrev FutResult := Except Str (Bool × Str × Str)

/-- The `try/except` of source lines 135-140: an exception from
`fut.result()` is converted into the synthesized `internal_exception`
outcome with `normalized = "<unknown>"`. -/
def settle : FutResult → Bool × Str × Str
  | .ok r => r
  | .error m => (false, ("internal_exception: ").toList ++ m, ("<unknown>").toList)

/-- Contents of the three output files plus the completion counter of the
result loop (source lines 132-148).  A log record keeps the
`(ok, msg, normalized)` data of its formatted line (the timestamp is
abstracted away). -/
structure SinkState where
  success : List Str
  fail : List Str
  log : List (Bool × Str × Str)
  completed : Nat
deriving DecidableEq

/-- The empty sink: all three output files empty, nothing completed. -/
def emptySink : SinkState := ⟨[], [], [], 0⟩

/-- One iteration of the result loop (source lines 133-148): settle the
future, append to the log, and append to exactly one of success/fail
(`f"{normalized}  # {msg}"` on failure, source line 148). -/
def record (st : SinkState) (f : FutResult) : SinkState :=
  let r := settle f
  { success := if r.1 then st.success ++ [r.2.2] else st.success
    fail := if r.1 then st.fail else st.fail ++ [r.2.2 ++ ("  # ").toList ++ r.2.1]
    log := st.log ++ [r]
    completed := st.completed + 1 }

/-- The whole result loop, fed the futures in completion order. -/
def runSink (futs : List FutResult) : SinkState :=
  futs.foldl record emptySink

/-- The record appended to `success.txt` by a settled future, if any. -/
def succRec (f : FutResult) : Option Str :=
  if (settle f).1 then some (settle f).2.2 else none

/-- The record appended to `fail.txt` by a settled future, if any. -/
def failRec (f : FutResult) : Option Str :=
  if (settle f).1 then none
  else some ((settle f).2.2 ++ ("  # ").toList ++ (settle f).2.1)

/-- Observable effects of one process run: exit code, number of usage
lines printed, number of missing-file error lines printed, whether the
three output files were truncated, and the final sink contents. -/
structure CliOutcome where
  exitCode : Int
  usagePrinted : Nat
  errPrinted : Nat
  truncated : Bool
  sink : SinkState
deriving DecidableEq

/-- `main(input_file)` (source lines 111-151): report and return 1 when
the input file is missing (before touching the output files); otherwise
truncate the output files, run the result loop, and return 0.
`futsOrder` is the completion order in which `as_completed` yields the
submitted futures; since one task is submitted per input line (source
lines 128-130), the theorems constrain it to be a permutation of
`lines.map orac` for an oracle `orac` giving each line's task result. -/
def main (fileExists : Bool) (futsOrder : List FutResult) : CliOutcome :=
  if fileExists then ⟨0, 0, 0, true, runSink futsOrder⟩
  else ⟨1, 0, 1, false, emptySink⟩

/-- The `__main__` block (source lines 153-157): fewer than 2 entries in
`sys.argv` prints the usage line to standard output and exits 2; otherwise
the process exits with `main`'s return value. -/
def cliMain (argc : Nat) (fileExists : Bool) (futsOrder : List FutResult) :
    CliOutcome :=
  if argc < 2 then ⟨2, 1, 0, false, emptySink⟩
  else main fileExists futsOrder

/-! ### Lemmas about the result loop -/

theorem foldl_record_log (futs : List FutResult) :
    ∀ st : SinkState, (futs.foldl record st).log = st.log ++ futs.map settle := by
  induction futs with
  | nil => intro st; simp
  | cons f t ih =>
    intro st
    simp only [List.foldl_cons, List.map_cons, ih, record]
    simp

theorem foldl_record_success (futs : List FutResult) :
    ∀ st : SinkState,
      (futs.foldl record st).success = st.success ++ futs.filterMap succRec := by
  induction futs with
  | nil => intro st; simp
  | cons f t ih =>
    intro st
    simp only [List.foldl_cons, List.filterMap_cons, ih, record, succRec]
    cases h : (settle f).1 <;> simp [h]

theorem foldl_record_fail (futs : List FutResult) :
    ∀ st : SinkState,
      (futs.foldl record st).fail = st.fail ++ futs.filterMap failRec := by
  induction futs with
  | nil => intro st; simp
  | cons f t ih =>
    intro st
    simp only [List.foldl_cons, List.filterMap_cons, ih, record, failRec]
    cases h : (settle f).1 <;> simp [h]

theorem foldl_record_completed (futs : List FutResult) :
    ∀ st : SinkState,
      (futs.foldl record st).completed = st.completed + futs.length := by
  induction futs with
  | nil => intro st; simp
  | cons f t ih =>
    intro st
    simp only [List.foldl_cons, List.length_cons, ih, record]
    omega

theorem succ_fail_length (futs : List FutResult) :
    (futs.filterMap succRec).length + (futs.filterMap failRec).length =
      futs.length := by
  induction futs with
  | nil => simp
  | cons f t ih =>
    simp only [List.filterMap_cons, succRec, failRec]
    cases h : (settle f).1 <;> simp [h] <;> omega

/-- Claim C1: one task is submitted per input line, so for any completion
order (a permutation of the submitted futures) the result loop appends
exactly `lines.length` records across the success and failure lists, logs
every settled outcome exactly once (the log IS the settled completion
stream), and counts `lines.length` completions — no line dropped or
duplicated, regardless of parse, network, or internal failure. -/
theorem run_one_outcome_per_line
    (orac : Str → FutResult) (lines : List Str) (order : List FutResult)
    (hperm : order.Perm (lines.map orac)) :
    (runSink order).success.length + (runSink order).fail.length = lines.length ∧
    (runSink order).log = order.map settle ∧
    (runSink order).completed = lines.length := by
  have hlen : order.length = lines.length := by
    simpa using hperm.length_eq
  refine ⟨?_, ?_, ?_⟩
  · rw [runSink, foldl_record_success, foldl_record_fail]
    simpa [emptySink] using (succ_fail_length order).trans hlen
  · rw [runSink, foldl_record_log]
    simp [emptySink]
  · rw [runSink, foldl_record_completed]
    simp [emptySink, hlen]

/-- Witness for C1 at a concrete one-line run. -/
theorem run_one_outcome_per_line_witness :
    ([Except.ok (false, ("parse_error").toList, ("x").toList)] : List FutResult).Perm
      ((["x".toList] : List Str).map
        (fun l => Except.ok (false, ("parse_error").toList, l))) ∧
    ((runSink [Except.ok (false, ("parse_error").toList, ("x").toList)]).success.length +
        (runSink [Except.ok (false, ("parse_error").toList, ("x").toList)]).fail.length =
        ([("x").toList] : List Str).length ∧
      (runSink [Except.ok (false, ("parse_error").toList, ("x").toList)]).log =
        ([Except.ok (false, ("parse_error").toList, ("x").toList)] : List FutResult).map settle ∧
      (runSink [Except.ok (false, ("parse_error").toList, ("x").toList)]).completed =
        ([("x").toList] : List Str).length) :=
  ⟨by exact List.Perm.refl _,
   run_one_outcome_per_line (fun l => Except.ok (false, ("parse_error").toList, l))
     [("x").toList] [Except.ok (false, ("parse_error").toList, ("x").toList)]
     (by exact List.Perm.refl _)⟩

/-- Claim C7: when a task's `fut.result()` raises with message `m`, the
coordinator synthesizes a failure record with normalized line `<unknown>`
and message `internal_exception: m` in the failure list, and the run
still completes with the full `lines.length` count. -/
theorem internal_exception_recovered
    (orac : Str → FutResult) (lines : List Str) (order : List FutResult) (m : Str)
    (hperm : order.Perm (lines.map orac)) (hm : Except.error m ∈ order) :
    (("<unknown>").toList ++ ("  # ").toList ++ (("internal_exception: ").toList ++ m))
        ∈ (runSink order).fail ∧
    (runSink order).completed = lines.length ∧
    (runSink order).success.length + (runSink order).fail.length = lines.length := by
  have hlen : order.length = lines.length := by
    simpa using hperm.length_eq
  refine ⟨?_, ?_, ?_⟩
  · rw [runSink, foldl_record_fail]
    simp only [emptySink, List.nil_append]
    exact List.mem_filterMap.mpr ⟨Except.error m, hm, rfl⟩
  · rw [runSink, foldl_record_completed]
    simp [emptySink, hlen]
  · rw [runSink, foldl_record_success, foldl_record_fail]
    simpa [emptySink] using (succ_fail_length order).trans hlen

/-- Witness for C7 at a concrete run whose single task raises. -/
theorem internal_exception_recovered_witness :
    ([Except.error ("boom").toList] : List FutResult).Perm
      ((["x".toList] : List Str).map (fun _ => Except.error ("boom").toList)) ∧
    (Except.error ("boom").toList ∈ ([Except.error ("boom").toList] : List FutResult)) ∧
    ((("<unknown>").toList ++ ("  # ").toList ++
        (("internal_exception: ").toList ++ ("boom").toList))
        ∈ (runSink [Except.error ("boom").toList]).fail ∧
      (runSink [Except.error ("boom").toList]).completed =
        ([("x").toList] : List Str).length ∧
      (runSink [Except.error ("boom").toList]).success.length +
        (runSink [Except.error ("boom").toList]).fail.length =
        ([("x").toList] : List Str).length) :=
  ⟨by exact List.Perm.refl _, by exact List.mem_singleton.mpr rfl,
   internal_exception_recovered (fun _ => Except.error ("boom").toList)
     [("x").toList] [Except.error ("boom").toList] (("boom").toList)
     (by exact List.Perm.refl _) (by exact List.mem_singleton.mpr rfl)⟩

/-- Claim C5: the normalized line carried by the probe's outcome is
`normalize` of the parsed entry when parsing succeeded, and the stripped
raw line when parsing failed — for every network behaviour. -/
theorem probe_normalized_line (net : CredentialEntry → NetBehavior) (line : Str) :
    (∀ e, extract_ftp_entry line = some e →
        (test_ftp_connect net line).2.2 = normalize e) ∧
    (extract_ftp_entry line = none →
        (test_ftp_connect net line).2.2 = strip line) := by
  constructor
  · intro e he
    simp only [test_ftp_connect, he]
    cases hc : (net e).connect <;> cases hl : (net e).login <;>
      cases hq : (net e).quit <;> simp [hc, hl, hq]
  · intro he
    simp [test_ftp_connect, he]

/-- Witness for C5: a successful parse and a failed parse, concretely. -/
theorem probe_normalized_line_witness :
    ((test_ftp_connect (fun _ => ⟨none, none, none, none⟩)
        (("h:21:u:p").toList)).2.2 =
      normalize ⟨("h").toList, 21, ("u").toList, ("p").toList⟩) ∧
    ((test_ftp_connect (fun _ => ⟨none, none, none, none⟩)
        ((" junk ").toList)).2.2 = strip ((" junk ").toList)) :=
  ⟨(probe_normalized_line _ _).1 _ (by decide),
   (probe_normalized_line _ _).2 (by decide)⟩

/-- Claim C6 counterexample: connect and login succeed and the best-effort
listing fails, yet the outcome is NOT `connected`: the final `ftp.quit()`
(source line 90) raises inside the same `try`, so its `error_perm` is
classified as a failure even though login succeeded. -/
theorem listing_claim_counterexample :
    test_ftp_connect
        (fun _ => ⟨none, none, some (PyExc.otherExc ("boom").toList),
                   some (PyExc.errorPerm ("530").toList)⟩)
        (("h:21:u:p").toList) =
      (false, ("perm_error: ").toList ++ ("530").toList, ("h:21:u:p").toList) ∧
    test_ftp_connect
        (fun _ => ⟨none, none, some (PyExc.otherExc ("boom").toList),
                   some (PyExc.errorPerm ("530").toList)⟩)
        (("h:21:u:p").toList) ≠
      (true, ("connected").toList, ("h:21:u:p").toList) := by
  constructor
  · decide
  · decide

/-- Claim C6 (amended): when connect, login AND the final quit all
succeed, a failure of the best-effort `nlst` listing never changes the
outcome — it is still `success=true` with classification `connected`. -/
theorem listing_failure_ignored
    (net : CredentialEntry → NetBehavior) (line : Str) (e : CredentialEntry)
    (ex : PyExc) (he : extract_ftp_entry line = some e)
    (hc : (net e).connect = none) (hl : (net e).login = none)
    (_hn : (net e).nlst = some ex) (hq : (net e).quit = none) :
    test_ftp_connect net line = (true, ("connected").toList, normalize e) := by
  simp [test_ftp_connect, he, hc, hl, hq]

/-- Witness for C6 (amended): a concrete probe whose listing fails. -/
theorem listing_failure_ignored_witness :
    test_ftp_connect
        (fun _ => ⟨none, none, some (PyExc.otherExc ("denied").toList), none⟩)
        (("h:21:u:p").toList) =
      (true, ("connected").toList,
       normalize ⟨("h").toList, 21, ("u").toList, ("p").toList⟩) :=
  listing_failure_ignored _ _ _ (PyExc.otherExc ("denied").toList)
    (by decide) rfl rfl rfl rfl

/-- Claim C8: the entry parser is a total pure function — on every input
it returns either a credential entry or the failure value, never an
exception; in particular on empty, whitespace-only, colon-free and
non-numeric-port inputs it returns the failure value. -/
theorem extract_total_no_exception :
    (∀ s : Str, extract_ftp_entry s = none ∨ ∃ e, extract_ftp_entry s = some e) ∧
    extract_ftp_entry ([] : Str) = none ∧
    extract_ftp_entry (("   ").toList) = none ∧
    extract_ftp_entry (("no colons here").toList) = none ∧
    extract_ftp_entry (("h:ftp:u:p").toList) = none := by
  refine ⟨fun s => ?_, by decide, by decide, by decide, by decide⟩
  cases h : extract_ftp_entry s
  · exact Or.inl rfl
  · exact Or.inr ⟨_, rfl⟩

/-! ### Lemmas about stripping and right-splitting -/

theorem dropWhile_eq_self_of (p : Char → Bool) (l : Str)
    (h : ∀ c ∈ l, p c = false) : l.dropWhile p = l := by
  cases l with
  | nil => rfl
  | cons a t => simp [List.dropWhile_cons, h a (List.mem_cons_self a t)]

theorem dropWhile_eq_nil_of (p : Char → Bool) (l : Str)
    (h : ∀ c ∈ l, p c = true) : l.dropWhile p = [] := by
  induction l with
  | nil => rfl
  | cons a t ih =>
    simp [List.dropWhile_cons, h a (List.mem_cons_self a t),
      ih fun c hc => h c (List.mem_cons_of_mem a hc)]

theorem strip_eq_self (l : Str) (h : ∀ c ∈ l, isPySpace c = false) :
    strip l = l := by
  unfold strip
  rw [dropWhile_eq_self_of _ _ h,
    dropWhile_eq_self_of _ _ (fun c hc => h c (List.mem_reverse.mp hc)),
    List.reverse_reverse]

theorem takeWhile_append_sep (sep : Char) (l r : Str)
    (h : ∀ c ∈ l, (c != sep) = true) :
    (l ++ sep :: r).takeWhile (fun c => c != sep) = l := by
  induction l with
  | nil => simp [List.takeWhile_cons]
  | cons a t ih =>
    simp [List.takeWhile_cons, h a (List.mem_cons_self a t),
      ih fun c hc => h c (List.mem_cons_of_mem a hc)]

theorem dropWhile_append_sep (sep : Char) (l r : Str)
    (h : ∀ c ∈ l, (c != sep) = true) :
    (l ++ sep :: r).dropWhile (fun c => c != sep) = sep :: r := by
  induction l with
  | nil => simp [List.dropWhile_cons]
  | cons a t ih =>
    simp [List.dropWhile_cons, h a (List.mem_cons_self a t),
      ih fun c hc => h c (List.mem_cons_of_mem a hc)]

theorem rsplit1_spec (sep : Char) (a b : Str) (hb : sep ∉ b) :
    rsplit1 sep (a ++ sep :: b) = some (a, b) := by
  have hrev : (a ++ sep :: b).reverse = b.reverse ++ sep :: a.reverse := by
    simp
  have hall : ∀ c ∈ b.reverse, (c != sep) = true := by
    intro c hc
    simp only [bne_iff_ne, ne_eq]
    intro hcs
    exact hb (hcs ▸ List.mem_reverse.mp hc)
  rw [rsplit1, hrev, dropWhile_append_sep sep _ _ hall,
    takeWhile_append_sep sep _ _ hall]
  simp

theorem rsplit1_none (sep : Char) (l : Str) (h : sep ∉ l) :
    rsplit1 sep l = none := by
  rw [rsplit1, dropWhile_eq_nil_of]
  intro c hc
  simp only [bne_iff_ne, ne_eq]
  intro hcs
  exact h (hcs ▸ List.mem_reverse.mp hc)

theorem head_dropWhile_false (p : Char → Bool) :
    ∀ (l t : Str) (c : Char), l.dropWhile p = c :: t → p c = false := by
  intro l
  induction l with
  | nil => intro t c h; simp at h
  | cons a l' ih =>
    intro t c h
    rw [List.dropWhile_cons] at h
    by_cases ha : p a = true
    · rw [if_pos ha] at h
      exact ih t c h
    · rw [if_neg ha] at h
      cases h
      exact Bool.eq_false_iff.mpr ha

theorem rsplit1_decomp (sep : Char) (l x y : Str)
    (h : rsplit1 sep l = some (x, y)) : l = x ++ sep :: y := by
  rw [rsplit1] at h
  cases hd : l.reverse.dropWhile (fun c => c != sep) with
  | nil => rw [hd] at h; simp at h
  | cons c before =>
    rw [hd] at h
    simp only [Option.some.injEq, Prod.mk.injEq] at h
    have hc : (c != sep) = false :=
      head_dropWhile_false (fun c => c != sep) l.reverse before c hd
    have hcs : c = sep := by simpa using hc
    have hsplit : l.reverse.takeWhile (fun c => c != sep) ++
        l.reverse.dropWhile (fun c => c != sep) = l.reverse :=
      List.takeWhile_append_dropWhile (fun c => c != sep) l.reverse
    rw [hd, hcs] at hsplit
    have : l = (l.reverse.takeWhile (fun c => c != sep) ++ sep :: before).reverse := by
      rw [hsplit, List.reverse_reverse]
    rw [this, List.reverse_append, List.reverse_cons]
    rw [← h.1, ← h.2]
    simp

theorem rsplit3_length_four_count (sep : Char) (l : Str)
    (h : (rsplit3 sep l).length = 4) : 3 ≤ l.count sep := by
  rw [rsplit3] at h
  cases h1 : rsplit1 sep l with
  | none => rw [h1] at h; simp at h
  | some pr1 =>
    obtain ⟨l1, p4⟩ := pr1
    simp only [h1] at h
    cases h2 : rsplit1 sep l1 with
    | none => simp only [h2] at h; simp at h
    | some pr2 =>
      obtain ⟨l2, p3⟩ := pr2
      simp only [h2] at h
      cases h3 : rsplit1 sep l2 with
      | none => simp only [h3] at h; simp at h
      | some pr3 =>
        obtain ⟨l3, p2⟩ := pr3
        have e1 := rsplit1_decomp sep l l1 p4 h1
        have e2 := rsplit1_decomp sep l1 l2 p3 h2
        have e3 := rsplit1_decomp sep l2 l3 p2 h3
        rw [e1, e2, e3]
        simp [List.count_append, List.count_cons]
        omega

/-- Claim C2 counterexample: a line with five colon-delimited fields (four
colons) does NOT fail — `rsplit(':', 3)` absorbs the extra colon into the
host field, so `"a:b:21:u:p"` parses successfully with host `"a:b"`. -/
theorem field_count_counterexample :
    extract_ftp_entry (("a:b:21:u:p").toList) =
      some ⟨("a:b").toList, 21, ("u").toList, ("p").toList⟩ ∧
    3 < (("a:b:21:u:p").toList).count ':' := by
  constructor
  · decide
  · decide

/-- Claim C2 (amended): the parser succeeds only when right-splitting the
preprocessed line yields exactly 4 parts; in particular any line whose
preprocessed form has fewer than 3 colons (fewer than 4 colon-delimited
trailing fields) is a parse failure, returned without crashing.  Lines
with MORE than 4 colon-delimited fields still split into exactly 4 parts
(extra colons stay in the host field) and may parse successfully. -/
theorem field_count_amended :
    (∀ s : Str,
      (rsplit3 ':' (preprocess s)).length ≠ 4 → extract_ftp_entry s = none) ∧
    (∀ s : Str, (preprocess s).count ':' < 3 → extract_ftp_entry s = none) := by
  have h1 : ∀ s : Str,
      (rsplit3 ':' (preprocess s)).length ≠ 4 → extract_ftp_entry s = none := by
    intro s hlen
    by_cases hs : strip s = []
    · simp [extract_ftp_entry, hs]
    · rw [extract_ftp_entry, if_neg hs]
      rcases hr : rsplit3 ':' (preprocess s) with
        _ | ⟨a, _ | ⟨b, _ | ⟨c, _ | ⟨d, _ | ⟨e, t⟩⟩⟩⟩⟩
      · rfl
      · rfl
      · rfl
      · rfl
      · exact absurd (by rw [hr]; rfl) hlen
      · rfl
  refine ⟨h1, fun s hcount => h1 s fun hlen => ?_⟩
  exact absurd (rsplit3_length_four_count ':' (preprocess s) hlen)
    (by omega)

/-- Witness for C2 (amended) on concrete short lines. -/
theorem field_count_amended_witness :
    ((rsplit3 ':' (preprocess (("host:user:pass").toList))).length ≠ 4 ∧
      extract_ftp_entry (("host:user:pass").toList) = none) ∧
    ((preprocess (("host:user:pass").toList)).count ':' < 3 ∧
      extract_ftp_entry (("host:user:pass").toList) = none) :=
  ⟨⟨by decide, field_count_amended.1 (("host:user:pass").toList) (by decide)⟩,
   ⟨by decide, field_count_amended.2 (("host:user:pass").toList) (by decide)⟩⟩

/-- Claim C3 counterexample: the port field `"021"` does NOT reappear in
the normalized line: `int("021") = 21` and the f-string renders `21`, so
`normalize(parse("h:021:u:p")) = "h:21:u:p"`, not `"h:021:u:p"` — even
though `"021"` is exactly the trimmed port field. -/
theorem roundtrip_counterexample :
    extract_ftp_entry (("h:021:u:p").toList) =
      some ⟨("h").toList, 21, ("u").toList, ("p").toList⟩ ∧
    rsplit3 ':' (preprocess (("h:021:u:p").toList)) =
      [("h").toList, ("021").toList, ("u").toList, ("p").toList] ∧
    strip (("021").toList) = ("021").toList ∧
    normalize ⟨("h").toList, 21, ("u").toList, ("p").toList⟩ =
      ("h:21:u:p").toList ∧
    normalize ⟨("h").toList, 21, ("u").toList, ("p").toList⟩ ≠
      ("h:021:u:p").toList := by
  refine ⟨by decide, by decide, by decide, by decide, by decide⟩

/-- Claim C3 (amended): for every successfully parsed line, the host,
user and password of the normalized line are exactly the trimmed split
fields, joined by single colons with no re-added whitespace; the port
reappears as the canonical decimal rendering of its parsed integer value
(which equals the trimmed port field exactly when that field was already
canonical — e.g. `"021"` reappears as `"21"`). -/
theorem roundtrip_amended (s : Str) (e : CredentialEntry)
    (hs : extract_ftp_entry s = some e) :
    ∃ f0 f1 f2 f3, rsplit3 ':' (preprocess s) = [f0, f1, f2, f3] ∧
      e.host = strip f0 ∧ e.user = strip f2 ∧ e.password = strip f3 ∧
      pyInt (strip f1) = some e.port ∧
      normalize e =
        strip f0 ++ ':' :: (intChars e.port ++ ':' :: (strip f2 ++ ':' :: strip f3)) ∧
      (intChars e.port = strip f1 →
        normalize e =
          strip f0 ++ ':' :: (strip f1 ++ ':' :: (strip f2 ++ ':' :: strip f3))) := by
  rw [extract_ftp_entry] at hs
  by_cases hstrip : strip s = []
  · rw [if_pos hstrip] at hs
    simp at hs
  · rw [if_neg hstrip] at hs
    rcases hr : rsplit3 ':' (preprocess s) with
      _ | ⟨a, _ | ⟨b, _ | ⟨c, _ | ⟨d, _ | ⟨f, t⟩⟩⟩⟩⟩ <;>
      simp only [hr] at hs
    · simp at hs
    · simp at hs
    · simp at hs
    · simp at hs
    · cases hpi : pyInt (strip b) with
      | none =>
        simp only [hpi] at hs
        exact Option.noConfusion hs
      | some port =>
        simp only [hpi] at hs
        by_cases hne : strip a = [] ∨ strip c = []
        · rw [if_pos hne] at hs
          simp at hs
        · rw [if_neg hne] at hs
          obtain rfl : CredentialEntry.mk (strip a) port (strip c) (strip d) = e :=
            Option.some.inj hs
          exact ⟨a, b, c, d, rfl, rfl, rfl, rfl, hpi, rfl,
            fun hp => by rw [← hp]; exact rfl⟩
    · simp at hs

/-- Witness for C3 (amended) at a concrete canonical line. -/
theorem roundtrip_amended_witness :
    ∃ f0 f1 f2 f3,
      rsplit3 ':' (preprocess (("h:21:u:p").toList)) = [f0, f1, f2, f3] ∧
      (CredentialEntry.mk (("h").toList) 21 (("u").toList) (("p").toList)).host =
        strip f0 ∧
      (CredentialEntry.mk (("h").toList) 21 (("u").toList) (("p").toList)).user =
        strip f2 ∧
      (CredentialEntry.mk (("h").toList) 21 (("u").toList) (("p").toList)).password =
        strip f3 ∧
      pyInt (strip f1) =
        some (CredentialEntry.mk (("h").toList) 21 (("u").toList) (("p").toList)).port ∧
      normalize (CredentialEntry.mk (("h").toList) 21 (("u").toList) (("p").toList)) =
        strip f0 ++ ':' ::
          (intChars (CredentialEntry.mk (("h").toList) 21 (("u").toList) (("p").toList)).port ++
            ':' :: (strip f2 ++ ':' :: strip f3)) ∧
      (intChars (CredentialEntry.mk (("h").toList) 21 (("u").toList) (("p").toList)).port =
          strip f1 →
        normalize (CredentialEntry.mk (("h").toList) 21 (("u").toList) (("p").toList)) =
          strip f0 ++ ':' :: (strip f1 ++ ':' :: (strip f2 ++ ':' :: strip f3))) :=
  roundtrip_amended (("h:21:u:p").toList)
    (CredentialEntry.mk (("h").toList) 21 (("u").toList) (("p").toList)) (by decide)

/-! ### Character-class facts used for port-field reasoning -/

theorem portChar_not_space (c : Char)
    (h : isDigitCh c = true ∨ c = '-' ∨ c = '+') : isPySpace c = false := by
  rcases h with h | rfl | rfl
  · by_contra hsp
    rw [Bool.not_eq_false] at hsp
    have hcases : c = ' ' ∨ c = '\t' ∨ c = '\n' ∨ c = '\r' ∨ c = '\x0b' ∨
        c = '\x0c' := by
      simpa [isPySpace, or_assoc] using hsp
    rcases hcases with rfl | rfl | rfl | rfl | rfl | rfl <;>
      exact absurd h (by decide)
  · decide
  · decide

theorem portChar_not_colon (c : Char)
    (h : isDigitCh c = true ∨ c = '-' ∨ c = '+') : c ≠ ':' := by
  rcases h with h | rfl | rfl
  · intro hc
    subst hc
    exact absurd h (by decide)
  · decide
  · decide

theorem portChar_not_bracket (c : Char)
    (h : isDigitCh c = true ∨ c = '-' ∨ c = '+') : c ≠ ']' := by
  rcases h with h | rfl | rfl
  · intro hc
    subst hc
    exact absurd h (by decide)
  · decide
  · decide

theorem contains_eq_false_of (l : Str) (a : Char) (h : ∀ c ∈ l, c ≠ a) :
    l.contains a = false := by
  have hnm : a ∉ l := fun hm => h a hm rfl
  simpa using hnm

/-- Claim C4 counterexample: port `0` is outside 1-65535, yet
`"h:0:u:p"` parses to a valid credential entry with port `0`. -/
theorem port_range_counterexample :
    extract_ftp_entry (("h:0:u:p").toList) =
      some ⟨("h").toList, 0, ("u").toList, ("p").toList⟩ ∧
    ¬(1 ≤ (0 : Int) ∧ (0 : Int) ≤ 65535) := by
  constructor
  · decide
  · decide

/-- Claim C4 (amended): the parser performs NO range check on the port:
whatever integer the port field parses to — zero, negative, or above
65535 — the entry is accepted with exactly that integer as its port. -/
theorem port_range_unchecked (ds : Str) (n : Int)
    (hchar : ∀ c ∈ ds, isDigitCh c = true ∨ c = '-' ∨ c = '+')
    (hint : pyInt ds = some n) :
    extract_ftp_entry ('h' :: ':' :: (ds ++ ':' :: 'u' :: ':' :: 'p' :: [])) =
      some ⟨['h'], n, ['u'], ['p']⟩ := by
  set L := 'h' :: ':' :: (ds ++ ':' :: 'u' :: ':' :: 'p' :: []) with hL
  have hns : ∀ c ∈ L, isPySpace c = false := by
    intro c hc
    rw [hL] at hc
    simp only [List.mem_cons, List.mem_append, List.not_mem_nil, or_false] at hc
    rcases hc with rfl | rfl | hd | rfl | rfl | rfl | rfl
    · decide
    · decide
    · exact portChar_not_space c (hchar c hd)
    · decide
    · decide
    · decide
    · decide
  have hstripL : strip L = L := strip_eq_self L hns
  have hLne : ¬ L = [] := by
    rw [hL]
    exact List.cons_ne_nil _ _
  have hnb : L.contains ']' = false := by
    apply contains_eq_false_of
    intro c hc
    rw [hL] at hc
    simp only [List.mem_cons, List.mem_append, List.not_mem_nil, or_false] at hc
    rcases hc with rfl | rfl | hd | rfl | rfl | rfl | rfl
    · decide
    · decide
    · exact portChar_not_bracket c (hchar c hd)
    · decide
    · decide
    · decide
    · decide
  have hscheme : hasFtpScheme L = false := by
    rw [hasFtpScheme, hL]
    have hftp : ("ftp://").toList = ['f', 't', 'p', ':', '/', '/'] := rfl
    rw [hftp]
    rw [show ('h' :: ':' :: (ds ++ ':' :: 'u' :: ':' :: 'p' :: [])).take 6 =
        'h' :: ':' :: ((ds ++ ':' :: 'u' :: ':' :: 'p' :: []).take 4) from rfl]
    simp only [List.map_cons]
    rw [beq_eq_false_iff_ne]
    intro hcontra
    injection hcontra with h1 _
    exact absurd h1 (by decide)
  have hpre : preprocess L = L := by
    rw [preprocess]
    simp only [hstripL, hnb, hscheme, Bool.false_eq_true, if_false]
  have hds_colon : ':' ∉ ds := fun hm => portChar_not_colon ':' (hchar ':' hm) rfl
  have h1 : rsplit1 ':' L = some ('h' :: ':' :: (ds ++ [':', 'u']), ['p']) := by
    have hshape : L = ('h' :: ':' :: (ds ++ [':', 'u'])) ++ ':' :: ['p'] := by
      rw [hL]
      simp
    rw [hshape]
    exact rsplit1_spec ':' _ ['p'] (by decide)
  have h2 : rsplit1 ':' ('h' :: ':' :: (ds ++ [':', 'u'])) =
      some ('h' :: ':' :: ds, ['u']) := by
    have hshape : 'h' :: ':' :: (ds ++ [':', 'u']) =
        ('h' :: ':' :: ds) ++ ':' :: ['u'] := by
      simp
    rw [hshape]
    exact rsplit1_spec ':' _ ['u'] (by decide)
  have h3 : rsplit1 ':' ('h' :: ':' :: ds) = some (['h'], ds) := by
    have hshape : 'h' :: ':' :: ds = ['h'] ++ ':' :: ds := rfl
    rw [hshape]
    exact rsplit1_spec ':' ['h'] ds hds_colon
  have hr3 : rsplit3 ':' L = [['h'], ds, ['u'], ['p']] := by
    rw [rsplit3]
    simp only [h1, h2, h3]
  have hsds : strip ds = ds :=
    strip_eq_self ds fun c hc => portChar_not_space c (hchar c hc)
  rw [extract_ftp_entry, hstripL, if_neg hLne, hpre, hr3]
  simp only [hsds, hint]
  simp only [show strip ['h'] = ['h'] from by decide,
    show strip ['u'] = ['u'] from by decide,
    show strip ['p'] = ['p'] from by decide]
  simp

/-- Witness for C4 (amended): port 70000, far above 65535, is accepted. -/
theorem port_range_unchecked_witness :
    (∀ c ∈ ("70000").toList, isDigitCh c = true ∨ c = '-' ∨ c = '+') ∧
    pyInt (("70000").toList) = some 70000 ∧
    extract_ftp_entry
        ('h' :: ':' :: ((("70000").toList) ++ ':' :: 'u' :: ':' :: 'p' :: [])) =
      some ⟨['h'], 70000, ['u'], ['p']⟩ :=
  ⟨by decide, by decide,
   port_range_unchecked (("70000").toList) 70000 (by decide) (by decide)⟩

/-- Claim C10: with fewer than two argv entries the process prints the
usage line and exits 2 without touching the output files; with a missing
input file it reports the error once and exits 1 without truncating the
output files or probing; a run over an existing file truncates the files,
processes one outcome per line, and exits 0. -/
theorem cli_exit_codes (argc : Nat) (futs : List FutResult)
    (orac : Str → FutResult) (lines : List Str) :
    (argc < 2 →
      cliMain argc true futs = ⟨2, 1, 0, false, emptySink⟩ ∧
      cliMain argc false futs = ⟨2, 1, 0, false, emptySink⟩) ∧
    (2 ≤ argc → cliMain argc false futs = ⟨1, 0, 1, false, emptySink⟩) ∧
    (2 ≤ argc → futs.Perm (lines.map orac) →
      (cliMain argc true futs).exitCode = 0 ∧
      (cliMain argc true futs).truncated = true ∧
      (cliMain argc true futs).sink.completed = lines.length) := by
  refine ⟨fun h => ?_, fun h => ?_, fun h hp => ?_⟩
  · constructor <;> rw [cliMain, if_pos h]
  · rw [cliMain, if_neg (by omega)]
    simp [main]
  · rw [cliMain, if_neg (by omega)]
    refine ⟨by simp [main], by simp [main], ?_⟩
    have hlen : futs.length = lines.length := by
      simpa using hp.length_eq
    simp [main, runSink, foldl_record_completed, emptySink, hlen]

/-- Witness for C10 covering all three exit paths concretely. -/
theorem cli_exit_codes_witness :
    (cliMain 1 true [] = ⟨2, 1, 0, false, emptySink⟩ ∧
      cliMain 1 false [] = ⟨2, 1, 0, false, emptySink⟩) ∧
    (cliMain 2 false [] = ⟨1, 0, 1, false, emptySink⟩) ∧
    ((cliMain 2 true []).exitCode = 0 ∧
      (cliMain 2 true []).truncated = true ∧
      (cliMain 2 true []).sink.completed = ([] : List Str).length) :=
  ⟨(cli_exit_codes 1 [] (fun _ => Except.error []) []).1 (by decide),
   (cli_exit_codes 2 [] (fun _ => Except.error []) []).2.1 (by decide),
   (cli_exit_codes 2 [] (fun _ => Except.error []) []).2.2 (by decide)
     (List.Perm.refl _)⟩

end FtpTester
